import Mathlib

/-!
Verification development for the completion-resolution pipeline of the
zsh LLM CLI autocomplete tool.

The embedding models the Python sources under `src/model_completer/`:
`cache.py` (CacheManager), `client.py` (OllamaClient), `completer.py`
(ModelCompleter) and `enhanced_completer.py` (EnhancedCompleter).
Python strings are modelled as `List Char` (Lean's built-in `String`
primitives are not kernel-reducible, so the character-level functions
below re-implement exactly the primitives the source uses: `str.strip`,
`str.lower`, `str.split`, `str.replace`, `in`, `startswith`, `endswith`
and the handful of anchored regular expressions appearing in the code).
External effects (HTTP calls to the Ollama backend, git subprocesses,
the training-corpus file, the on-disk cache) are modelled as explicit
environment values passed to the embedded functions.
-/

namespace ZshComplete

/-! ## Character-level string primitives (Python semantics) -/

/-- Whitespace test used by Python `str.strip()` / `str.split()`. -/
def isWs (c : Char) : Bool := c.isWhitespace

/-- Python `str.lstrip()`. -/
def stripLeft (l : List Char) : List Char := l.dropWhile isWs

/-- Python `str.rstrip()`. -/
def stripRight (l : List Char) : List Char := (l.reverse.dropWhile isWs).reverse

/-- Python `str.strip()`. -/
def strip (l : List Char) : List Char := stripRight (stripLeft l)

/-- Python `str.lower()` (ASCII case fold, which is all the source needs). -/
def lower (l : List Char) : List Char := l.map Char.toLower

/-- Python `sep in s` (substring containment). -/
def containsSub (needle : List Char) : List Char → Bool
  | [] => needle.isEmpty
  | c :: t => needle.isPrefixOf (c :: t) || containsSub needle t

/-- Python `s.split(sep)` for a single-character separator. -/
def splitOnChar (sep : Char) : List Char → List (List Char)
  | [] => [[]]
  | c :: cs =>
    if c = sep then [] :: splitOnChar sep cs
    else
      match splitOnChar sep cs with
      | [] => [[c]]
      | h :: t => (c :: h) :: t

/-- Python `sep.join(parts)` for a single-character separator. -/
def joinChar (sep : Char) : List (List Char) → List Char
  | [] => []
  | [p] => p
  | p :: ps => p ++ sep :: joinChar sep ps

/-- Python `s.split()` (split on whitespace runs, dropping empty fields). -/
def splitWs (l : List Char) : List String :=
  ((l.splitOnP isWs).filter (fun p => !p.isEmpty)).map (fun p => ⟨p⟩)

/-- Python `s.startswith(p)` for one prefix. -/
def startsWithS (p : String) (l : List Char) : Bool := p.data.isPrefixOf l

/-- Python `s.startswith(tuple)`. -/
def startsWithAny (ps : List String) (l : List Char) : Bool :=
  ps.any (fun p => startsWithS p l)

/-- Python `s.endswith(p)`. -/
def endsWithS (p : String) (l : List Char) : Bool := p.data.isSuffixOf l

/-- Python `sub in s` with a string-literal needle. -/
def containsStr (needle : String) (l : List Char) : Bool := containsSub needle.data l

/-- Case-insensitive `s.startswith(p)`: how the source's `re.IGNORECASE`
anchored matches behave. -/
def startsWithCI (p : String) (l : List Char) : Bool := p.data.isPrefixOf (lower l)

/-- Python `s.replace(pat, '')` (left-to-right, non-overlapping removal).
The first argument counts characters still to be skipped from a match. -/
def removeAllGo (pat : List Char) : Nat → List Char → List Char
  | k + 1, _ :: cs => removeAllGo pat k cs
  | _, [] => []
  | 0, c :: cs =>
    if pat ≠ [] && pat.isPrefixOf (c :: cs) then removeAllGo pat (pat.length - 1) cs
    else c :: removeAllGo pat 0 cs

/-- Python `s.replace(pat, '')`. -/
def removeAll (pat : String) (l : List Char) : List Char := removeAllGo pat.data 0 l

/-! ## Artifact cache: `CacheManager` (cache.py)

The on-disk cache directory is modelled as an association list from the
(hashed) key to the state of the corresponding cache file. -/

/-- The possible states of one cache file, as `CacheManager.get` can
observe them: the file may be unreadable (`IOError` on open/read), hold
text that is not valid JSON (`json.JSONDecodeError`), or hold the
`{value, expiry, created}` record that `CacheManager.set` writes. -/
inductive CacheFile where
  | unreadable : CacheFile
  | badJson : CacheFile
  | entry (expiry : Int) (value : String) : CacheFile
deriving DecidableEq

/-- The cache directory: key (already hashed to a file name) ↦ file. -/
def CacheDir := List (String × CacheFile)

instance : DecidableEq CacheDir := by unfold CacheDir; infer_instance

/-- Look up the file for a key (None = file does not exist). -/
def cacheLookup (st : CacheDir) (key : String) : Option CacheFile :=
  (st.find? (fun p => p.1 == key)).map (fun p => p.2)

/-- `os.remove` of one cache file. -/
def cacheRemove (st : CacheDir) (key : String) : CacheDir :=
  List.eraseP (fun p => p.1 == key) st

/-- Embedding of `CacheManager.get` (cache.py lines 19-37), given the
current clock.  Returns the produced value together with the cache
directory after the call.  An unreadable or syntactically invalid file
raises inside the `try`, is caught by `except (json.JSONDecodeError,
IOError)`, and the method returns `None` without touching the file; only
an expired entry is removed (`os.remove`). -/
def cacheGet (now : Int) (st : CacheDir) (key : String) :
    Option String × CacheDir :=
  match cacheLookup st key with
  | none => (none, st)
  | some CacheFile.unreadable => (none, st)
  | some CacheFile.badJson => (none, st)
  | some (CacheFile.entry expiry value) =>
    if expiry < now then (none, cacheRemove st key)
    else (some value, st)

/-! ## Remote backend client: `OllamaClient.generate_completion` (client.py) -/

/-- JSON values, for the body of an HTTP response. -/
inductive JVal where
  | jnull : JVal
  | jbool (b : Bool) : JVal
  | jnum (n : Int) : JVal
  | jstr (s : String) : JVal
  | jarr (elems : List JVal) : JVal
  | jobj (fields : List (String × JVal)) : JVal

/-- Outcome of the `requests.post` call in `generate_completion`:
a timeout, another request failure (connection error and the like), or a
response with a status code and a body.  `body = none` models a body that
`response.json()` cannot parse; with the pinned `requests>=2.28.0` that
raises `requests.exceptions.JSONDecodeError`, a subclass of
`RequestException`. -/
inductive HttpOutcome where
  | timeout : HttpOutcome
  | connError : HttpOutcome
  | resp (status : Nat) (body : Option JVal) : HttpOutcome

/-- A Python exception escaping to the caller. -/
inductive PyExc where
  | attributeError : PyExc
deriving DecidableEq

/-- Python dict `.get`. -/
def jlookup (k : String) (fields : List (String × JVal)) : Option JVal :=
  (fields.find? (fun p => p.1 == k)).map (fun p => p.2)

/-- Truthiness of an optional string (`if x:` in Python: `None` and the
empty string are falsy). -/
def truthy : Option String → Bool
  | none => false
  | some s => !s.isEmpty

/-- Python `str.strip()` at the `String` level. -/
def pyStrip (s : String) : String := ⟨strip s.data⟩

/-- Embedding of `OllamaClient.generate_completion` (client.py lines
26-83).  `cached` is the value `self.cache.get(cache_key)` would produce.
The `try` block catches `requests.exceptions.Timeout` and
`requests.exceptions.RequestException` (which also covers an unparseable
body); a 200 response whose parsed body is not a JSON object, or whose
`response` field is not a string, makes `result.get("response", "").strip()`
raise `AttributeError`, which no `except` clause catches. -/
def generateCompletion (useCache : Bool) (cached : Option String)
    (out : HttpOutcome) : Except PyExc String :=
  if useCache && truthy cached then Except.ok (cached.getD "")
  else
    match out with
    | HttpOutcome.timeout => Except.ok ""
    | HttpOutcome.connError => Except.ok ""
    | HttpOutcome.resp status body =>
      if status = 200 then
        match body with
        | none => Except.ok ""
        | some (JVal.jobj fields) =>
          match jlookup "response" fields with
          | none => Except.ok (pyStrip "")
          | some (JVal.jstr s) => Except.ok (pyStrip s)
          | some _ => Except.error PyExc.attributeError
        | some _ => Except.error PyExc.attributeError
      else Except.ok ""

/-- Modelled from the spec (refinement reference for C2): the completion
the spec promises — empty string on timeout, connection error, non-2xx
status or malformed body, and the stripped `response` field on success. -/
def specCompleteResult : HttpOutcome → String
  | HttpOutcome.timeout => ""
  | HttpOutcome.connError => ""
  | HttpOutcome.resp status body =>
    if status = 200 then
      match body with
      | some (JVal.jobj fields) =>
        match jlookup "response" fields with
        | some (JVal.jstr s) => pyStrip s
        | _ => ""
      | _ => ""
    else ""

/-- A response body that keeps `result.get("response", "").strip()` from
raising: whenever a 200 body parses, it is a JSON object whose
`response` field, if present, is a string. -/
def goodBody : HttpOutcome → Bool
  | HttpOutcome.resp status (some v) =>
    if status = 200 then
      match v with
      | JVal.jobj fields =>
        match jlookup "response" fields with
        | some (JVal.jstr _) => true
        | some _ => false
        | none => true
      | _ => false
    else true
  | _ => true

/-! ## Project-type detection: `_detect_project_context` (enhanced_completer.py) -/

/-- Presence of the marker files `_detect_project_context` checks. -/
structure DirMarkers where
  packageJson : Bool
  requirementsTxt : Bool
  pyprojectToml : Bool
  setupPy : Bool
  pomXml : Bool
  buildGradle : Bool
  cargoToml : Bool
  goMod : Bool
deriving DecidableEq

/-- The `project_type` computed by `_detect_project_context`
(enhanced_completer.py lines 65-132): a sequence of independent `if`
statements, each of which overwrites `context['project_type']` when its
marker is present. -/
def detectProjectType (d : DirMarkers) : String :=
  let t := "unknown"
  let t := if d.packageJson then "node" else t
  let t := if d.requirementsTxt || d.pyprojectToml || d.setupPy then "python" else t
  let t := if d.pomXml || d.buildGradle then "java" else t
  let t := if d.cargoToml then "rust" else t
  let t := if d.goMod then "go" else t
  t

/-- Modelled from the spec (refinement reference for C9): the claim's
priority order, in which the FIRST marker category present wins —
package manifest, then interpreter manifest, then build manifest, then
language-specific lockfile. -/
def specProjectTypeFirstMarker (d : DirMarkers) : String :=
  if d.packageJson then "node"
  else if d.requirementsTxt || d.pyprojectToml || d.setupPy then "python"
  else if d.pomXml || d.buildGradle then "java"
  else if d.cargoToml then "rust"
  else if d.goMod then "go"
  else "unknown"

/-! ## Response sanitizer of `ModelCompleter.get_completion` (completer.py 106-159) -/

/-- The tuple of explanatory-sentence openers rejected at completer.py
line 152. -/
def denyOpeners : List String :=
  ["To complete", "This will", "You can", "Enter", "Run:", "Note:", "```",
   "Environment:", "User:", "Host:", "Directory:", "Recent:", "Replace",
   "This will launch", "You can now", "This will display", "Suggestion:",
   "Implement:", "Provide", "Git commit is", "Remember,", "By following",
   "Start by", "Next,", "After that", "The command", "You are a",
   "Complete the command", "Command to complete", "Sure,", "Here",
   "This flag", "This option", "This command", "Input:", "Output:",
   "input:", "output:"]

/-- The numbered-list and bullet markers rejected at completer.py line 153. -/
def denyListMarkers : List String :=
  ["1.", "2.", "3.", "4.", "5.", "- ", "* ", "• ", "6.", "7.", "8.", "9.", "10."]

/-- The literal inside `re.sub(r'\s*\(Added by[^)]*\)', '', line)`. -/
def abLit : List Char := "(Added by".data

/-- Does `\s*\(Added by[^)]*\)` match at the head of `l`?  If so, return
the number of characters the match consumes.  The `\s*` is forced to the
leading whitespace run (the literal starts with a non-whitespace `(`),
and `[^)]*` is forced to stop at the first `)`. -/
def matchABLen (l : List Char) : Option Nat :=
  let rest := l.dropWhile isWs
  if abLit.isPrefixOf rest then
    let r := rest.drop abLit.length
    let inner := r.takeWhile (fun c => c ≠ ')')
    match r.drop inner.length with
    | ')' :: _ => some ((l.length - rest.length) + abLit.length + inner.length + 1)
    | _ => none
  else none

/-- Left-to-right scan of `re.sub(r'\s*\(Added by[^)]*\)', '', line)`;
the first argument counts characters of a match still to be skipped. -/
def removeABGo : Nat → List Char → List Char
  | k + 1, _ :: cs => removeABGo k cs
  | _, [] => []
  | 0, c :: cs =>
    match matchABLen (c :: cs) with
    | some n => removeABGo (n - 1) cs
    | none => c :: removeABGo 0 cs

/-- Python `re.sub(r'\s*\(Added by[^)]*\)', '', line)`. -/
def removeAddedBy (l : List Char) : List Char := removeABGo 0 l

/-- Lower-case form of the label matched case-insensitively by
`Conventional Commit Message:` patterns. -/
def ccLit : List Char := "conventional commit message:".data

/-- Does `\s*Conventional Commit Message:` match (case-insensitively) at
the head of `l`? -/
def matchCC (l : List Char) : Bool :=
  ccLit.isPrefixOf (lower (l.dropWhile isWs))

/-- Python `re.sub(r'\s*Conventional Commit Message:.*$', '', line,
flags=re.IGNORECASE)`: truncate the line at the first match. -/
def removeConvCommitTail : List Char → List Char
  | [] => []
  | c :: cs => if matchCC (c :: cs) then [] else c :: removeConvCommitTail cs

/-- Python `re.sub(r'^(Input|Output|input|output):\s*', '', line,
flags=re.IGNORECASE).strip()` (completer.py line 131). -/
def stripIOLabel (l : List Char) : List Char :=
  if startsWithCI "input:" l then strip ((l.drop 6).dropWhile isWs)
  else if startsWithCI "output:" l then strip ((l.drop 7).dropWhile isWs)
  else strip l

/-- Python `re.sub(r'^\s*Conventional Commit Message:\s*', '', s,
flags=re.IGNORECASE).strip()` (completer.py line 138). -/
def stripConvCommitLabel (l : List Char) : List Char :=
  let d := l.dropWhile isWs
  if ccLit.isPrefixOf (lower d) then strip ((d.drop ccLit.length).dropWhile isWs)
  else strip l

/-- The quote-aware cleanup of completer.py lines 134-141: split on `"`,
clean the first quoted segment, refill it with `commit message` when it
becomes empty, and rejoin.  Lines with fewer than two quotes are left
unchanged. -/
def quoteFix (l : List Char) : List Char :=
  match splitOnChar '"' l with
  | p0 :: p1 :: p2 :: rest =>
    let q1 := removeAddedBy p1
    let q2 := stripConvCommitLabel q1
    let q3 := if q2.isEmpty then "commit message".data else q2
    joinChar '"' (p0 :: q3 :: p2 :: rest)
  | _ => l

/-- The per-candidate cleanup of completer.py lines 131-146: strip
`Input:`/`Output:` labels, then either the quote-aware cleanup or the
`(Added by …)` / `Conventional Commit Message:` removals, then `strip`. -/
def cleanCandidate (l : List Char) : List Char :=
  let l1 := stripIOLabel l
  let l2 :=
    if l1.contains '"' then quoteFix l1
    else removeConvCommitTail (removeAddedBy l1)
  strip l2

/-- The acceptance test of completer.py lines 149-157: non-empty, longer
than the original command, contains a space, starts with no deny-listed
opener or list marker, does not end in `:`, and carries no `$`/backtick
shell or code-fence decoration. -/
def acceptLine (cmdLen : Nat) (l : List Char) : Bool :=
  !l.isEmpty &&
  decide (cmdLen < l.length) &&
  l.contains ' ' &&
  !(startsWithAny denyOpeners l) &&
  !(startsWithAny denyListMarkers l) &&
  !(endsWithS ":" l) &&
  !(startsWithS "$" l) &&
  !(startsWithS "`" l) &&
  !(endsWithS "`" l)

/-- One loop iteration of completer.py lines 126-159: skip empty or
too-short candidates, clean, and accept or reject. -/
def processCandidate (cmdLen : Nat) (l : List Char) : Option (List Char) :=
  if l.isEmpty || decide (l.length ≤ cmdLen) then none
  else if acceptLine cmdLen (cleanCandidate l) then some (cleanCandidate l)
  else none

/-- Python `s.split('\n')`. -/
def splitLinesL (l : List Char) : List (List Char) := splitOnChar '\n' l

/-- The `Output:`-label scan of completer.py lines 110-117: the first
line whose stripped form starts (case-insensitively) with `Output:`,
with the label and following whitespace removed. -/
def outputLineOf (lines : List (List Char)) : Option (List Char) :=
  (lines.find? (fun l => startsWithCI "output:" (strip l))).map
    (fun l => strip (((strip l).drop 7).dropWhile isWs))

/-- Embedding of the response-sanitization block of
`ModelCompleter.get_completion` (completer.py lines 106-159): strip the
raw response, split into lines, prefer an `Output:`-labeled line over
the positional candidates, and return the first surviving line.  The
original command enters only through its length. -/
def extractCore (cmdLen : Nat) (response : List Char) : Option (List Char) :=
  List.findSome? (processCandidate cmdLen)
    (match outputLineOf (splitLinesL (strip response)) with
     | some ol => [ol]
     | none => (splitLinesL (strip response)).map strip)

/-- `String`-level wrapper of `extractCore`. -/
def extractCompletion (command response : String) : Option String :=
  (extractCore command.length response.data).map (fun l => ⟨l⟩)

end ZshComplete

namespace ZshComplete

/-! ## Theorems for claims C2, C3, C9 -/

/-- C3 (counterexample): on a cache file with invalid JSON the call
returns `None` but does NOT delete the offending file — the directory is
returned unchanged, with the corrupt file still present, contrary to the
claim that the file is deleted. -/
theorem cache_corrupt_not_deleted :
    cacheGet 0 [("k", CacheFile.badJson), ("k2", CacheFile.entry 100 "x")] "k"
      = (none, [("k", CacheFile.badJson), ("k2", CacheFile.entry 100 "x")])
    ∧ cacheLookup (cacheGet 0 [("k", CacheFile.badJson),
        ("k2", CacheFile.entry 100 "x")] "k").2 "k" = some CacheFile.badJson := by
  constructor
  · rfl
  · rfl

/-- C3 (amended): a `get` on a key whose cache file exists but is
unreadable or contains invalid JSON returns `None`, treating the entry
as a miss, and leaves the cache directory entirely unchanged (in
particular the offending file is NOT deleted; deletion happens only for
expired entries). -/
theorem cache_corrupt_is_miss (now : Int) (st : CacheDir) (key : String)
    (h : cacheLookup st key = some CacheFile.unreadable ∨
         cacheLookup st key = some CacheFile.badJson) :
    cacheGet now st key = (none, st) := by
  rcases h with h | h <;> simp [cacheGet, h]

/-- Witness for `cache_corrupt_is_miss` at a concrete directory. -/
theorem cache_corrupt_is_miss_witness :
    (cacheLookup [("a", CacheFile.unreadable)] "a" = some CacheFile.unreadable ∨
     cacheLookup [("a", CacheFile.unreadable)] "a" = some CacheFile.badJson)
    ∧ cacheGet 5 [("a", CacheFile.unreadable)] "a" = (none, [("a", CacheFile.unreadable)]) :=
  ⟨Or.inl (by rfl), cache_corrupt_is_miss 5 [("a", CacheFile.unreadable)] "a" (Or.inl (by rfl))⟩

/-- C2 (counterexample): a 200 response whose body parses to a JSON
array makes `result.get("response", "")` raise `AttributeError`, which
escapes to the caller — `generate_completion` is not exception-free. -/
theorem generate_completion_raises :
    generateCompletion false none (HttpOutcome.resp 200 (some (JVal.jarr [])))
      = Except.error PyExc.attributeError := by
  rfl

/-- C2 (amended): with caching disabled, whenever a 200 body that parses
is a JSON object whose `response` field is absent or a string,
`generate_completion` never raises: it returns the empty string on
timeout, connection error, non-200 status or unparseable body, and the
stripped `response` field of a 200 body. -/
theorem generate_completion_spec (out : HttpOutcome) (h : goodBody out = true) :
    generateCompletion false none out = Except.ok (specCompleteResult out) := by
  cases out with
  | timeout => rfl
  | connError => rfl
  | resp status body =>
    simp only [generateCompletion, specCompleteResult, truthy, Bool.false_and,
      Bool.false_eq_true, if_false]
    by_cases hs : status = 200
    · subst hs
      simp only [if_pos rfl]
      match body with
      | none => rfl
      | some JVal.jnull => simp [goodBody] at h
      | some (JVal.jbool b) => simp [goodBody] at h
      | some (JVal.jnum n) => simp [goodBody] at h
      | some (JVal.jstr s) => simp [goodBody] at h
      | some (JVal.jarr l) => simp [goodBody] at h
      | some (JVal.jobj fields) =>
        match hf : jlookup "response" fields with
        | none => simp [hf]; rfl
        | some (JVal.jstr s) => simp [hf]
        | some JVal.jnull => simp [goodBody, hf] at h
        | some (JVal.jbool b) => simp [goodBody, hf] at h
        | some (JVal.jnum n) => simp [goodBody, hf] at h
        | some (JVal.jarr l) => simp [goodBody, hf] at h
        | some (JVal.jobj f2) => simp [goodBody, hf] at h
    · simp [hs]

/-- Witness for `generate_completion_spec` on a concrete outcome. -/
theorem generate_completion_spec_witness :
    goodBody (HttpOutcome.resp 200
        (some (JVal.jobj [("response", JVal.jstr " ls -la ")]))) = true
    ∧ generateCompletion false none (HttpOutcome.resp 200
        (some (JVal.jobj [("response", JVal.jstr " ls -la ")])))
      = Except.ok (specCompleteResult (HttpOutcome.resp 200
        (some (JVal.jobj [("response", JVal.jstr " ls -la ")])))) :=
  ⟨by rfl, generate_completion_spec _ (by rfl)⟩

/-- C9 (counterexample): in a directory holding both a package manifest
(`package.json`) and an interpreter manifest (`requirements.txt`) the
code computes `python`, not the claim's highest-priority `node`: the
later `if` overwrites the earlier match, so the FIRST marker category
does not win. -/
theorem detect_project_type_not_first_marker :
    detectProjectType
        { packageJson := true, requirementsTxt := true, pyprojectToml := false,
          setupPy := false, pomXml := false, buildGradle := false,
          cargoToml := false, goMod := false } = "python"
    ∧ specProjectTypeFirstMarker
        { packageJson := true, requirementsTxt := true, pyprojectToml := false,
          setupPy := false, pomXml := false, buildGradle := false,
          cargoToml := false, goMod := false } = "node"
    ∧ detectProjectType
        { packageJson := true, requirementsTxt := true, pyprojectToml := false,
          setupPy := false, pomXml := false, buildGradle := false,
          cargoToml := false, goMod := false }
      ≠ specProjectTypeFirstMarker
        { packageJson := true, requirementsTxt := true, pyprojectToml := false,
          setupPy := false, pomXml := false, buildGradle := false,
          cargoToml := false, goMod := false } := by
  refine ⟨rfl, rfl, ?_⟩
  decide

/-- C9 (amended): detection is a fixed ordered list of marker checks and
is deterministic (it is a pure function of the marker set), but the LAST
matching check wins: the effective priority is `go.mod` over `Cargo.toml`
over `pom.xml`/`build.gradle` over the Python markers over
`package.json`. -/
theorem detect_project_type_last_marker_wins (d : DirMarkers) :
    detectProjectType d =
      (if d.goMod then "go"
       else if d.cargoToml then "rust"
       else if d.pomXml || d.buildGradle then "java"
       else if d.requirementsTxt || d.pyprojectToml || d.setupPy then "python"
       else if d.packageJson then "node"
       else "unknown") := by
  rcases d with ⟨a, b, c, e, f, g, h, i⟩
  cases a <;> cases b <;> cases c <;> cases e <;> cases f <;> cases g <;>
    cases h <;> cases i <;> rfl

end ZshComplete

namespace ZshComplete

/-! ## Claim C4: label preference in the sanitizer -/

/-- C4: the response `"Some reasoning.\nOutput: docker run -it nginx"`
sanitizes to `"docker run -it nginx"` for every original command
strictly shorter than the labeled command line: the `Output:`-labeled
line is preferred over the positional first surviving line. -/
theorem sanitizer_prefers_output_label (command : String)
    (h : command.length < 20) :
    extractCompletion command "Some reasoning.\nOutput: docker run -it nginx"
      = some "docker run -it nginx" := by
  have hb : decide (command.length < 20) = true := decide_eq_true h
  have hb2 : (decide ((20 : Nat) ≤ command.length)) = false := by
    simp only [decide_eq_false_iff_not]
    omega
  have hol : outputLineOf (splitLinesL
      (strip ("Some reasoning.\nOutput: docker run -it nginx").data))
      = some "docker run -it nginx".data := by decide
  have key : processCandidate command.length "docker run -it nginx".data
      = some "docker run -it nginx".data := by
    unfold processCandidate
    rw [show ("docker run -it nginx".data.isEmpty
          || decide ("docker run -it nginx".data.length ≤ command.length)) = false by
      rw [show "docker run -it nginx".data.length = 20 from rfl]
      rw [show "docker run -it nginx".data.isEmpty = false from rfl, hb2]
      rfl]
    simp only [Bool.false_eq_true, if_false]
    rw [show cleanCandidate "docker run -it nginx".data
        = "docker run -it nginx".data from by decide]
    rw [show acceptLine command.length "docker run -it nginx".data = true from by
        unfold acceptLine
        rw [show "docker run -it nginx".data.length = 20 from rfl, hb]
        decide]
    rfl
  unfold extractCompletion extractCore
  rw [hol]
  simp only [List.findSome?]
  rw [key]
  rfl

end ZshComplete

namespace ZshComplete

/-! ## Training-corpus fallback and the base resolver (completer.py) -/

/-- The cleanup `output.replace("Output:", "").replace("output:", "").strip()`
applied to a corpus record's output (completer.py lines 242, 248). -/
def cleanCorpusOutput (o : String) : String :=
  ⟨strip (removeAll "output:" (removeAll "Output:" o.data))⟩

/-- Embedding of `ModelCompleter._get_fallback_completion` (completer.py
lines 229-252).  The training corpus is `none` when the training file is
missing (or reading it raises); otherwise it is the parsed list of
`{input, output}` records in file order.  Exact match first, then — for
commands other than the special-cased `git` and `git comm` — substring
or prefix match; the first record whose test fires wins. -/
def fallbackCompletion (corpus : Option (List (String × String)))
    (command : String) : Option String :=
  match corpus with
  | none => none
  | some recs =>
    recs.findSome? (fun r =>
      if lower r.1.data == lower command.data then
        some (cleanCorpusOutput r.2)
      else if (!(lower (strip command.data) == "git".data) &&
               !(lower (strip command.data) == "git comm".data)) &&
              (containsSub (lower command.data) (lower r.1.data) ||
               (lower command.data).isPrefixOf (lower r.1.data)) then
        some (cleanCorpusOutput r.2)
      else none)

/-- The tail of `ModelCompleter.get_completion` (completer.py lines
164-169): use a truthy corpus fallback, otherwise echo the command. -/
def fallbackOrIdentity (corpus : Option (List (String × String)))
    (command : String) : String :=
  match fallbackCompletion corpus command with
  | some fb => if !fb.isEmpty then fb else command
  | none => command

/-- Embedding of `ModelCompleter.get_completion` (completer.py lines
77-169).  `response` is the outcome of the
`self.client.generate_completion` call inside the `try` block (`none`
models an exception, which the bare `except` turns into a fall-through);
every path that yields no accepted sanitized line ends in the corpus
fallback or the identity result. -/
def baseGetCompletion (corpus : Option (List (String × String)))
    (response : Option String) (command : String) : String :=
  match response with
  | none => fallbackOrIdentity corpus command
  | some r =>
    match extractCompletion command r with
    | some l => l
    | none => fallbackOrIdentity corpus command

end ZshComplete

namespace ZshComplete

/-! ## Claim C5: rejection of all-explanatory responses

Every cleanup step of `cleanCandidate` keeps a deny-listed
explanatory-sentence opener at the head of the line, so the acceptance
test fails for every line of such a response. -/

/-- No match of `\s*\(Added by[^)]*\)` can begin at the head of `l`,
whatever is appended after `l`: the first non-whitespace run of `l`
already decides the literal comparison. -/
def noMatchStartAB (l : List Char) : Bool :=
  !(l.dropWhile isWs).isEmpty &&
  !(abLit.isPrefixOf (l.dropWhile isWs)) &&
  !((l.dropWhile isWs).isPrefixOf abLit)

/-- Same for the case-insensitive `Conventional Commit Message:` match. -/
def noMatchStartCC (l : List Char) : Bool :=
  !(l.dropWhile isWs).isEmpty &&
  !(ccLit.isPrefixOf (lower (l.dropWhile isWs))) &&
  !((lower (l.dropWhile isWs)).isPrefixOf ccLit)

/-- First character exists and is not whitespace. -/
def headSafe (l : List Char) : Bool :=
  match l with
  | [] => false
  | c :: _ => !isWs c

/-- A deny-list opener is *safe* when no cleanup step of `cleanCandidate`
can disturb it at the head of a line: non-empty, no leading or trailing
whitespace, no quote character, and no `(Added by …)` or
`Conventional Commit Message:` match can start inside it. -/
def openerSafe (p : List Char) : Bool :=
  headSafe p && headSafe p.reverse && !(p.contains '"') &&
  (List.range p.length).all
    (fun i => noMatchStartAB (p.drop i) && noMatchStartCC (p.drop i))

/-- All 38 deny-listed openers of completer.py line 152 are safe. -/
theorem all_openers_safe : ∀ p ∈ denyOpeners, openerSafe p.data = true := by decide

theorem isPrefixOf_append_self (p t : List Char) : p.isPrefixOf (p ++ t) = true := by
  induction p with
  | nil => simp [List.isPrefixOf]
  | cons c cs ih => simp [List.isPrefixOf, ih]

theorem exists_append_of_isPrefixOf {p l : List Char}
    (h : p.isPrefixOf l = true) : ∃ t, l = p ++ t := by
  induction p generalizing l with
  | nil => exact ⟨l, rfl⟩
  | cons c cs ih =>
    cases l with
    | nil => simp [List.isPrefixOf] at h
    | cons d ds =>
      simp only [List.isPrefixOf, Bool.and_eq_true, beq_iff_eq] at h
      obtain ⟨rfl, h2⟩ := h
      obtain ⟨t, rfl⟩ := ih h2
      exact ⟨t, rfl⟩

theorem isPrefixOf_append_cases {a b t : List Char}
    (h : a.isPrefixOf (b ++ t) = true) :
    a.isPrefixOf b = true ∨ b.isPrefixOf a = true := by
  induction a generalizing b with
  | nil => left; simp [List.isPrefixOf]
  | cons x xs ih =>
    cases b with
    | nil => right; simp [List.isPrefixOf]
    | cons y ys =>
      simp only [List.cons_append, List.isPrefixOf, Bool.and_eq_true,
        beq_iff_eq] at h ⊢
      obtain ⟨rfl, h2⟩ := h
      rcases ih h2 with h3 | h3
      · exact Or.inl ⟨rfl, h3⟩
      · exact Or.inr ⟨rfl, h3⟩

theorem dropWhile_append_of_ne_nil {xs ys : List Char}
    (h : xs.dropWhile isWs ≠ []) :
    (xs ++ ys).dropWhile isWs = xs.dropWhile isWs ++ ys := by
  rw [List.dropWhile_append, if_neg]
  simpa [List.isEmpty_iff] using h

theorem matchABLen_append_none {l : List Char}
    (h : noMatchStartAB l = true) (t : List Char) :
    matchABLen (l ++ t) = none := by
  unfold noMatchStartAB at h
  simp only [Bool.and_eq_true, Bool.not_eq_true'] at h
  obtain ⟨⟨hne, hab⟩, hba⟩ := h
  have hd : (l ++ t).dropWhile isWs = l.dropWhile isWs ++ t :=
    dropWhile_append_of_ne_nil (by simpa [List.isEmpty_iff] using hne)
  unfold matchABLen
  rw [hd, if_neg]
  intro hpre
  rcases isPrefixOf_append_cases hpre with h1 | h1
  · rw [h1] at hab; exact absurd hab (by simp)
  · rw [h1] at hba; exact absurd hba (by simp)

theorem matchCC_append_false {l : List Char}
    (h : noMatchStartCC l = true) (t : List Char) :
    matchCC (l ++ t) = false := by
  unfold noMatchStartCC at h
  simp only [Bool.and_eq_true, Bool.not_eq_true'] at h
  obtain ⟨⟨hne, hab⟩, hba⟩ := h
  have hd : (l ++ t).dropWhile isWs = l.dropWhile isWs ++ t :=
    dropWhile_append_of_ne_nil (by simpa [List.isEmpty_iff] using hne)
  unfold matchCC
  rw [hd]
  have hmap : lower (l.dropWhile isWs ++ t)
      = lower (l.dropWhile isWs) ++ lower t := by
    simp [lower]
  rw [hmap]
  rcases hc : ccLit.isPrefixOf (lower (l.dropWhile isWs) ++ lower t) with _ | _
  · rfl
  · rcases isPrefixOf_append_cases hc with h1 | h1
    · rw [h1] at hab; exact absurd hab (by simp)
    · rw [h1] at hba; exact absurd hba (by simp)

theorem removeABGo_zero_append {p : List Char}
    (hp : ∀ i, i < p.length → noMatchStartAB (p.drop i) = true) (t : List Char) :
    removeABGo 0 (p ++ t) = p ++ removeABGo 0 t := by
  induction p with
  | nil => simp
  | cons c cs ih =>
    have h0 := hp 0 (by simp)
    rw [List.drop_zero] at h0
    have hnone : matchABLen (c :: (cs ++ t)) = none := by
      have := matchABLen_append_none h0 t
      simpa using this
    simp only [List.cons_append, removeABGo, List.append_eq, hnone]
    rw [ih]
    intro i hi
    have := hp (i + 1) (by simpa using Nat.succ_lt_succ hi)
    simpa using this

theorem removeConvCommitTail_append {p : List Char}
    (hp : ∀ i, i < p.length → noMatchStartCC (p.drop i) = true) (t : List Char) :
    removeConvCommitTail (p ++ t) = p ++ removeConvCommitTail t := by
  induction p with
  | nil => simp
  | cons c cs ih =>
    have h0 := hp 0 (by simp)
    rw [List.drop_zero] at h0
    have hfalse : matchCC (c :: (cs ++ t)) = false := by
      have := matchCC_append_false h0 t
      simpa using this
    simp only [List.cons_append, removeConvCommitTail, List.append_eq, hfalse,
      Bool.false_eq_true, if_false, List.cons.injEq, true_and]
    rw [ih]
    intro i hi
    have := hp (i + 1) (by simpa using Nat.succ_lt_succ hi)
    simpa using this

theorem dropWhile_of_headSafe {l : List Char} (h : headSafe l = true) :
    l.dropWhile isWs = l := by
  cases l with
  | nil => simp [headSafe] at h
  | cons c cs =>
    simp only [headSafe, Bool.not_eq_true'] at h
    simp [List.dropWhile_cons, h]

theorem strip_append_of_safe {p : List Char} (h1 : headSafe p = true)
    (h2 : headSafe p.reverse = true) (t : List Char) :
    ∃ t', strip (p ++ t) = p ++ t' := by
  unfold strip stripLeft stripRight
  have hL : (p ++ t).dropWhile isWs = p ++ t := by
    rw [List.dropWhile_append, dropWhile_of_headSafe h1, if_neg]
    · cases p with
      | nil => simp [headSafe] at h1
      | cons c cs => simp
  rw [hL, List.reverse_append]
  rw [List.dropWhile_append]
  by_cases he : (t.reverse.dropWhile isWs).isEmpty = true
  · rw [if_pos he, dropWhile_of_headSafe h2, List.reverse_reverse]
    exact ⟨[], by simp⟩
  · rw [if_neg he, List.reverse_append, List.reverse_reverse]
    exact ⟨(t.reverse.dropWhile isWs).reverse, rfl⟩

theorem splitOnChar_ne_nil (sep : Char) (l : List Char) :
    splitOnChar sep l ≠ [] := by
  cases l with
  | nil => simp [splitOnChar]
  | cons c cs =>
    unfold splitOnChar
    by_cases hc : c = sep
    · simp [hc]
    · rw [if_neg hc]
      rcases splitOnChar sep cs with _ | ⟨h, t⟩ <;> simp

theorem splitOnChar_append_no_quote {p : List Char}
    (hq : p.contains '"' = false) (t : List Char) :
    ∃ h r, splitOnChar '"' t = h :: r ∧
      splitOnChar '"' (p ++ t) = (p ++ h) :: r := by
  induction p with
  | nil =>
    rcases hs : splitOnChar '"' t with _ | ⟨h, r⟩
    · exact absurd hs (splitOnChar_ne_nil _ _)
    · exact ⟨h, r, rfl, by simp [hs]⟩
  | cons c cs ih =>
    simp only [List.contains_cons, Bool.or_eq_false_iff, beq_eq_false_iff_ne] at hq
    obtain ⟨hc, hcs⟩ := hq
    obtain ⟨h, r, ht, hsplit⟩ := ih hcs
    refine ⟨h, r, ht, ?_⟩
    simp only [List.cons_append]
    unfold splitOnChar
    rw [if_neg (by exact fun hh => hc hh.symm), hsplit]

theorem joinChar_cons_append (sep : Char) (p h : List Char)
    (r : List (List Char)) :
    ∃ t', joinChar sep ((p ++ h) :: r) = p ++ t' := by
  cases r with
  | nil => exact ⟨h, rfl⟩
  | cons q qs =>
    refine ⟨h ++ sep :: joinChar sep (q :: qs), ?_⟩
    simp [joinChar, List.append_assoc]

theorem quoteFix_keeps {p : List Char} (hq : p.contains '"' = false)
    (t : List Char) : ∃ t', quoteFix (p ++ t) = p ++ t' := by
  obtain ⟨h, r, _, hsplit⟩ := splitOnChar_append_no_quote hq t
  unfold quoteFix
  rw [hsplit]
  match r with
  | [] => exact ⟨t, rfl⟩
  | [p1] => exact ⟨t, rfl⟩
  | p1 :: p2 :: rest => exact joinChar_cons_append _ _ _ _

theorem openerSafe_parts {p : List Char} (hs : openerSafe p = true) :
    headSafe p = true ∧ headSafe p.reverse = true ∧ p.contains '"' = false ∧
    (∀ i, i < p.length → noMatchStartAB (p.drop i) = true) ∧
    (∀ i, i < p.length → noMatchStartCC (p.drop i) = true) := by
  unfold openerSafe at hs
  simp only [Bool.and_eq_true, Bool.not_eq_true', List.all_eq_true,
    List.mem_range] at hs
  obtain ⟨⟨⟨hh, hr⟩, hq⟩, hall⟩ := hs
  exact ⟨hh, hr, hq, fun i hi => (hall i hi).1, fun i hi => (hall i hi).2⟩

theorem cleanCandidate_keeps {p : List Char} (hs : openerSafe p = true)
    (t : List Char)
    (hni : startsWithCI "input:" (p ++ t) = false)
    (hno : startsWithCI "output:" (p ++ t) = false) :
    ∃ t', cleanCandidate (p ++ t) = p ++ t' := by
  obtain ⟨hh, hr, hq, hab, hcc⟩ := openerSafe_parts hs
  unfold cleanCandidate stripIOLabel
  rw [hni, hno]
  simp only [Bool.false_eq_true, if_false]
  obtain ⟨t1, ht1⟩ := strip_append_of_safe hh hr t
  rw [ht1]
  by_cases hq1 : (p ++ t1).contains '"' = true
  · rw [hq1]
    simp only [if_true]
    obtain ⟨t2, ht2⟩ := quoteFix_keeps hq t1
    rw [ht2]
    exact strip_append_of_safe hh hr t2
  · rw [Bool.eq_false_iff.mpr hq1]
    simp only [Bool.false_eq_true, if_false]
    unfold removeAddedBy
    rw [removeABGo_zero_append hab, removeConvCommitTail_append hcc]
    exact strip_append_of_safe hh hr _

theorem acceptLine_false_of_opener {cmdLen : Nat} {s : String}
    (hmem : s ∈ denyOpeners) {l : List Char}
    (hpre : startsWithS s l = true) : acceptLine cmdLen l = false := by
  have hany : startsWithAny denyOpeners l = true := by
    unfold startsWithAny
    rw [List.any_eq_true]
    exact ⟨s, hmem, hpre⟩
  unfold acceptLine
  rw [hany]
  simp

/-- A line every one of whose occurrences in the response begins (after
stripping) with one of the deny-listed explanatory-sentence openers of
completer.py line 152, and which is not an `Input:`/`Output:`-labeled
line (those are labels, not explanatory sentences, and take the separate
label-extraction path). -/
def explanatoryLine (l : List Char) : Prop :=
  (∃ s ∈ denyOpeners, startsWithS s (strip l) = true) ∧
  startsWithCI "input:" (strip l) = false ∧
  startsWithCI "output:" (strip l) = false

instance (l : List Char) : Decidable (explanatoryLine l) := by
  unfold explanatoryLine
  infer_instance

/-- Sanitization accepts no line of an all-explanatory response. -/
theorem extractCompletion_eq_none_of_explanatory (command response : String)
    (h : ∀ l ∈ splitLinesL (strip response.data), explanatoryLine l) :
    extractCompletion command response = none := by
  unfold extractCompletion extractCore
  have hout : outputLineOf (splitLinesL (strip response.data)) = none := by
    unfold outputLineOf
    rw [List.find?_eq_none.mpr, Option.map_none']
    intro l hl hc
    rw [(h l hl).2.2] at hc
    exact absurd hc (by simp)
  rw [hout]
  have hnone : List.findSome? (processCandidate command.length)
      ((splitLinesL (strip response.data)).map strip) = none := by
    rw [List.findSome?_eq_none_iff]
    intro x hx
    rw [List.mem_map] at hx
    obtain ⟨l, hl, rfl⟩ := hx
    obtain ⟨⟨s, hsmem, hspre⟩, hni, hno⟩ := h l hl
    obtain ⟨t, ht⟩ := exists_append_of_isPrefixOf hspre
    rw [ht] at hni hno ⊢
    unfold processCandidate
    by_cases hshort :
        ((s.data ++ t).isEmpty || decide ((s.data ++ t).length ≤ command.length)) = true
    · rw [if_pos hshort]
    · rw [if_neg hshort]
      obtain ⟨t3, ht3⟩ :=
        cleanCandidate_keeps (all_openers_safe s hsmem) t hni hno
      rw [ht3, acceptLine_false_of_opener hsmem (isPrefixOf_append_self _ _)]
      simp
  rw [hnone]
  rfl

/-- C5: for every backend response in which every line begins with an
explanatory-sentence opener from the deny-list (and no line is an
`Input:`/`Output:` label line), sanitization accepts no line
(`extractCompletion` is `None`), so the resolver falls through to the
corpus fallback or the identity result. -/
theorem sanitizer_rejects_explanatory (command response : String)
    (corpus : Option (List (String × String)))
    (h : ∀ l ∈ splitLinesL (strip response.data), explanatoryLine l) :
    extractCompletion command response = none ∧
    baseGetCompletion corpus (some response) command
      = fallbackOrIdentity corpus command := by
  have he := extractCompletion_eq_none_of_explanatory command response h
  refine ⟨he, ?_⟩
  show (match extractCompletion command response with
        | some l => l
        | none => fallbackOrIdentity corpus command)
      = fallbackOrIdentity corpus command
  rw [he]

/-- Witness for `sanitizer_rejects_explanatory` at the spec's example
response. -/
theorem sanitizer_rejects_explanatory_witness :
    (∀ l ∈ splitLinesL (strip
      ("This will run the container.\nYou can stop it with docker stop.").data),
        explanatoryLine l) ∧
    extractCompletion "docker"
        "This will run the container.\nYou can stop it with docker stop." = none ∧
    baseGetCompletion none
        (some "This will run the container.\nYou can stop it with docker stop.")
        "docker"
      = fallbackOrIdentity none "docker" :=
  ⟨by decide, sanitizer_rejects_explanatory "docker"
      "This will run the container.\nYou can stop it with docker stop." none (by decide)⟩

/-- Witness for `sanitizer_prefers_output_label` at a concrete command. -/
theorem sanitizer_prefers_output_label_witness :
    ("docker".length < 20) ∧
    extractCompletion "docker" "Some reasoning.\nOutput: docker run -it nginx"
      = some "docker run -it nginx" :=
  ⟨by decide, sanitizer_prefers_output_label "docker" (by decide)⟩

end ZshComplete

namespace ZshComplete

/-! ## Client state, oracle environment and the scoped timeout override -/

/-- The mutable fields of `OllamaClient` the resolver observes
(`base_url`, `timeout`), plus a call counter: the index of the next
`generate_completion` call, abstracting the backend interaction. -/
structure CState where
  baseUrl : String
  timeout : Nat
  calls : Nat
deriving DecidableEq

/-- Stdout of the read-only git subprocess calls made by
`_analyze_git_changes` (enhanced_completer.py 604-755).
`isRepo = false` models `git rev-parse --is-inside-work-tree` failing
with `CalledProcessError` (not a repository). -/
structure GitEnv where
  isRepo : Bool
  statusShort : String
  diffNameOnly : String
  diffCachedNameOnly : String
  diffNameStatus : String
  diffCachedNameStatus : String
  diffCachedStat : String
  diffStat : String

/-- Environment of one resolution: the observable behaviour of all
external collaborators of `EnhancedCompleter`. -/
structure REnv where
  /-- `get_available_models()` result (the real method returns `[]` on
  any request failure and never raises). -/
  models : List String
  /-- Backend oracle: the outcome of the n-th `generate_completion`
  call given the client timeout in force; `none` models a raised
  exception, `some s` a returned completion (`""` on client-handled
  failures). -/
  complete : Nat → Nat → Option String
  /-- Parsed training corpus (`none` = file missing or unreadable). -/
  corpus : Option (List (String × String))
  git : GitEnv
  /-- Result of `_get_git_diff_context` (a pure function of the git
  diff text, abstracted as an environment value; the claims under proof
  never depend on its internals). -/
  diffContext : String

/-- One `self.client.generate_completion(...)` call at resolver level:
consumes the next oracle index; a `none` oracle answer models a raised
exception, with the client state at the raise carried in the error. -/
def callGen (env : REnv) (s : CState) : Except CState (String × CState) :=
  match env.complete s.calls s.timeout with
  | some r => Except.ok (r, { s with calls := s.calls + 1 })
  | none => Except.error { s with calls := s.calls + 1 }

/-- The scoped timeout-override pattern
(`original_timeout = self.client.timeout; self.client.timeout = k;
try: … finally: self.client.timeout = original_timeout`) of
enhanced_completer.py lines 290-307, 872-890, 1241-1287 and 1296-1309:
the override is restored on both normal return and raise. -/
def scopedTimeout {α : Type} (k : Nat)
    (inner : CState → Except CState (α × CState)) (s : CState) :
    Except CState (α × CState) :=
  match inner { s with timeout := k } with
  | Except.ok (a, s') => Except.ok (a, { s' with timeout := s.timeout })
  | Except.error s' => Except.error { s' with timeout := s.timeout }

/-- The client state an inner computation ends in, whether it returns
or raises. -/
def stateOf {α : Type} : Except CState (α × CState) → CState
  | Except.ok (_, s) => s
  | Except.error s => s

/-! ## Git change analysis: `_analyze_git_changes` (enhanced_completer.py 604-755) -/

/-- The `changes` dictionary built by `_analyze_git_changes`. -/
structure GitChanges where
  filesAdded : List String
  filesDeleted : List String
  filesModified : List String
  filesChanged : List String
  linesAdded : Nat
  linesRemoved : Nat
  summary : String
deriving DecidableEq

def emptyChanges : GitChanges :=
  { filesAdded := [], filesDeleted := [], filesModified := [],
    filesChanged := [], linesAdded := 0, linesRemoved := 0, summary := "" }

/-- `[f.strip() for f in stdout.strip().split('\n') if f.strip()]`. -/
def nonEmptyLines (s : String) : List String :=
  ((splitLinesL (strip s.data)).map (fun l => (⟨strip l⟩ : String))).filter
    (fun f => !f.isEmpty)

/-- Python `s.split()` on a character list (whitespace runs, no empties). -/
def pySplitWs (l : List Char) : List (List Char) :=
  (l.splitOnP isWs).filter (fun p => !p.isEmpty)

/-- Python `int(s)` for the digit strings the stat parser feeds it. -/
def parseNat (l : List Char) : Option Nat :=
  if !l.isEmpty && l.all (fun c => c.isDigit) then
    some (l.foldl (fun acc c => acc * 10 + (c.toNat - 48)) 0)
  else none

/-- One `num` entry of the `--stat` tail parsing (lines 716-727): `+`
entries add to `lines_added`, `-` entries to `lines_removed`; parse
failures are swallowed by the inner `try`. -/
def statAdd (acc : Nat × Nat) (numRaw : List Char) : Nat × Nat :=
  let num := strip numRaw
  if containsStr "+" num then
    match (pySplitWs (removeAll "+" num)).headD [] with
    | [] => acc
    | w => match parseNat w with
      | some n => (acc.1 + n, acc.2)
      | none => acc
  else if containsStr "-" num then
    match (pySplitWs (removeAll "-" num)).headD [] with
    | [] => acc
    | w => match parseNat w with
      | some n => (acc.1, acc.2 + n)
      | none => acc
  else acc

/-- One line of the `--stat` output parsing (lines 710-727). -/
def statLine (acc : Nat × Nat) (line : List Char) : Nat × Nat :=
  if containsStr "|" line &&
     (containsStr "file changed" (lower line) ||
      containsStr "files changed" (lower line)) then
    match splitOnChar '|' line with
    | _ :: p1 :: _ => (splitOnChar ',' (strip p1)).foldl statAdd acc
    | _ => acc
  else acc

/-- `lines_added`/`lines_removed` accumulated over the whole stat text. -/
def statCounts (diffOutput : List Char) : Nat × Nat :=
  (splitLinesL diffOutput).foldl statLine (0, 0)

/-- One line of `git diff --name-status` parsing (lines 646-658 and
664-677): `status = line[0]`, `filename = line[1:].strip()`. -/
def nameStatusFold (acc : GitChanges) (line : List Char) : GitChanges :=
  if (strip line).isEmpty then acc
  else
    match line with
    | [] => acc
    | st :: rest =>
      let filename : String := ⟨strip rest⟩
      if acc.filesChanged.contains filename then acc
      else
        let acc1 :=
          if st = 'A' then { acc with filesAdded := acc.filesAdded ++ [filename] }
          else if st = 'D' then { acc with filesDeleted := acc.filesDeleted ++ [filename] }
          else { acc with filesModified := acc.filesModified ++ [filename] }
        { acc1 with filesChanged := acc1.filesChanged ++ [filename] }

/-- One line of the `git status --short` fallback parsing (lines
679-695): `status = line[:2]`, `filename = line[3:].strip()`. -/
def statusShortFold (acc : GitChanges) (line : List Char) : GitChanges :=
  if (strip line).isEmpty then acc
  else
    let status := line.take 2
    let filename : String := ⟨strip (line.drop 3)⟩
    if acc.filesChanged.contains filename then acc
    else
      let acc1 :=
        if startsWithS "A" status then
          { acc with filesAdded := acc.filesAdded ++ [filename] }
        else if startsWithS "D" status then
          { acc with filesDeleted := acc.filesDeleted ++ [filename] }
        else if startsWithS "M" status || startsWithS "R" status then
          { acc with filesModified := acc.filesModified ++ [filename] }
        else acc
      { acc1 with filesChanged := acc1.filesChanged ++ [filename] }

/-- Python `sep.join(strings)`. -/
def joinStrings (sep : String) : List String → String
  | [] => ""
  | [x] => x
  | x :: xs => x ++ sep ++ joinStrings sep xs

/-- One clause of the summary builder (lines 731-748). -/
def summaryClause (verb : String) (files : List String) : List String :=
  if files.isEmpty then []
  else if decide (3 < files.length) then
    [verb ++ " " ++ joinStrings ", " (files.take 3) ++ " and " ++
      toString (files.length - 3) ++ " more"]
  else [verb ++ " " ++ joinStrings ", " (files.take 3)]

/-- Embedding of `_analyze_git_changes` (enhanced_completer.py 604-755)
over the git subprocess outputs: staged name-status wins over unstaged,
which wins over parsing `git status --short`; cached stat wins over
plain stat for the line counts; the summary lists up to three files per
category. -/
def analyzeGitChanges (g : GitEnv) : GitChanges :=
  if !g.isRepo then emptyChanges
  else
    let statusOutput := strip g.statusShort.data
    let unstagedFiles := nonEmptyLines g.diffNameOnly
    let stagedFiles := nonEmptyLines g.diffCachedNameOnly
    if statusOutput.isEmpty && unstagedFiles.isEmpty && stagedFiles.isEmpty then
      emptyChanges
    else
      let c :=
        if !stagedFiles.isEmpty then
          (splitLinesL (strip g.diffCachedNameStatus.data)).foldl nameStatusFold emptyChanges
        else if !unstagedFiles.isEmpty then
          (splitLinesL (strip g.diffNameStatus.data)).foldl nameStatusFold emptyChanges
        else
          (splitLinesL statusOutput).foldl statusShortFold emptyChanges
      let diffOutput :=
        if (strip g.diffCachedStat.data).isEmpty then g.diffStat.data
        else g.diffCachedStat.data
      let counts := if diffOutput.isEmpty then (0, 0) else statCounts diffOutput
      let c := { c with linesAdded := counts.1, linesRemoved := counts.2 }
      let parts := summaryClause "add" c.filesAdded ++
        summaryClause "update" c.filesModified ++
        summaryClause "remove" c.filesDeleted
      { c with summary := joinStrings "; " parts }

end ZshComplete

namespace ZshComplete

/-! ## Commit-message synthesis: `_generate_commit_message`
(enhanced_completer.py 757-1096) -/

/-- `re.sub(r'^(Input|Output|input|output):\s*', '', s, flags=re.IGNORECASE)`
without a trailing strip (line 897 and line 1114). -/
def stripIOLabelRaw (l : List Char) : List Char :=
  if startsWithCI "input:" l then (l.drop 6).dropWhile isWs
  else if startsWithCI "output:" l then (l.drop 7).dropWhile isWs
  else l

/-- `re.sub(r'^\s*<label>\s*', '', s, flags=re.IGNORECASE)` for a fixed
lower-case label (lines 910-911). -/
def stripLabelPrefixCI (lab : String) (l : List Char) : List Char :=
  if lab.data.isPrefixOf (lower (l.dropWhile isWs)) then
    ((l.dropWhile isWs).drop lab.length).dropWhile isWs
  else l

/-- Does `\s*\([^)]*\)\s*$` match at the head of `l` (reaching the end
of the line)? -/
def matchTrailParenAt (l : List Char) : Bool :=
  match l.dropWhile isWs with
  | '(' :: r =>
    match r.drop ((r.takeWhile (fun c => c ≠ ')')).length) with
    | ')' :: tail => (tail.dropWhile isWs).isEmpty
    | _ => false
  | _ => false

/-- Python `re.sub(r'\s*\([^)]*\)\s*$', '', line)` (line 922): drop a
trailing parenthetical. -/
def removeTrailParen : List Char → List Char
  | [] => []
  | c :: cs => if matchTrailParenAt (c :: cs) then [] else c :: removeTrailParen cs

/-- Python `s.strip(ch)` for one character. -/
def stripCharEnds (ch : Char) (l : List Char) : List Char :=
  ((l.dropWhile (fun c => c = ch)).reverse.dropWhile (fun c => c = ch)).reverse

/-- `line.split(':', 1)`: the text before the first colon and the text
after it. -/
def splitFirstColon (l : List Char) : List Char × List Char :=
  let before := l.takeWhile (fun c => c ≠ ':')
  (before, (l.drop before.length).drop 1)

/-- The explanatory-line openers skipped by the commit-message parser
(line 914). -/
def commitSkipStarts : List String :=
  ["Generate", "Format:", "Examples:", "Changes:", "Project:",
   "File types:", "Here", "Sure", "This"]

/-- The list markers skipped by the commit-message parser (line 915). -/
def commitSkipMarkers : List String := ["1.", "2.", "3.", "- ", "* ", "•"]

/-- The generic-message patterns rejected at lines 932-937. -/
def genericPatterns : List String :=
  ["add new functionality", "enhance functionality", "improve functionality",
   "update functionality", "add functionality",
   "enhance completion functionality", "improve code", "update code",
   "add feature", "new feature", "update feature", "enhance completion",
   "improve completion", "update completion"]

/-- The accepted conventional-commit types (line 943). -/
def validCommitTypes : List String :=
  ["feat", "fix", "refactor", "docs", "test", "chore", "perf", "style",
   "build", "ci"]

/-- The generic-keyword patterns of line 965. -/
def genericKeywords : List String :=
  ["enhance functionality", "improve functionality", "add functionality",
   "update functionality", "add new functionality", "enhance completion",
   "improve completion", "update completion", "add feature", "new feature",
   "update feature", "improve code", "update code"]

/-- The bare generic verbs and nouns of lines 966 and 972. -/
def genericVerbs : List String := ["enhance", "improve", "update", "add"]

def genericNouns : List String :=
  ["functionality", "feature", "code", "completion", "code", "implementation"]

/-- The exactly-rejected placeholder subjects (line 963). -/
def rejectedExactSubjects : List String := ["message", "commit message", "commit"]

/-- The commit-type inference of lines 946-954 when the given type is
not in `validCommitTypes`. -/
def inferCommitType (subjectLower : List Char) : List Char :=
  if ["add", "new", "feature", "implement", "create"].any
      (fun w => containsStr w subjectLower) then "feat".data
  else if ["fix", "bug", "error", "issue", "resolve"].any
      (fun w => containsStr w subjectLower) then "fix".data
  else if ["refactor", "simplify", "restructure"].any
      (fun w => containsStr w subjectLower) then "refactor".data
  else "feat".data

/-- One line of the commit-message extraction loop (enhanced_completer.py
lines 901-984): markdown cleanup, label removal, skip checks, `type:
subject` parsing, genericity and placeholder rejection, the 10-character
subject minimum, and the 72-character truncation. -/
def parseCommitLine (line0 : List Char) : Option (List Char) :=
  let line1 := strip line0
  if line1.isEmpty then none
  else
    let line2 := strip (removeAll "`" (removeAll "```" line1))
    let line3 := stripLabelPrefixCI "conventional commit message:" line2
    let line4 := stripLabelPrefixCI "commit message:" line3
    if startsWithAny commitSkipStarts line4 || startsWithAny commitSkipMarkers line4
        || decide (line4.length < 5) then none
    else if containsStr ":" (line4.take 80) then
      let line5 := strip line4
      let line6 := removeAddedBy (removeTrailParen line5)
      if decide (8 < line6.length) && decide (1 ≤ line6.count ':') then
        let ct := splitFirstColon line6
        let commitType := lower (strip ct.1)
        let subject0 := strip ct.2
        if genericPatterns.any (fun p => containsStr p (strip (lower subject0))) then
          none
        else
          let commitType1 :=
            if validCommitTypes.any (fun v => v.data == commitType) then commitType
            else inferCommitType (lower subject0)
          let subject := strip (stripCharEnds '\'' (stripCharEnds '"' subject0))
          if decide (5 ≤ subject.length) then
            let subjectLower := strip (lower subject)
            let isGeneric0 := genericKeywords.any (fun p => containsStr p subjectLower)
            let words := pySplitWs subjectLower
            let isGeneric := isGeneric0 ||
              (!isGeneric0 && decide (words.length ≤ 3) &&
               decide (2 ≤ words.length) &&
               genericVerbs.any (fun v => v.data == words.headD []) &&
               genericNouns.any (fun n => n.data == (words.drop 1).headD []))
            let isPlaceholder :=
              rejectedExactSubjects.any (fun r => r.data == subjectLower) ||
              containsStr "commit message" subjectLower
            if !isGeneric && !isPlaceholder && decide (10 ≤ (strip subject).length) then
              let subjectF :=
                if decide (72 < subject.length) then subject.take 69 ++ "...".data
                else subject
              some (commitType1 ++ ": ".data ++ subjectF)
            else none
          else none
      else none
    else none

/-- The full AI-response parsing of `_generate_commit_message`
(lines 892-901 plus the loop): strip, drop one leading
`Input:`/`Output:` label, split into lines, first accepted line wins. -/
def parseCommitResponse (completion : String) : Option (List Char) :=
  (splitLinesL (stripIOLabelRaw (strip completion.data))).findSome? parseCommitLine

/-- Text after the first occurrence of `sep` (`s.split(sep)[1:]` head). -/
def splitFirstOn (sep : List Char) : List Char → Option (List Char)
  | [] => none
  | c :: cs =>
    if sep ≠ [] && sep.isPrefixOf (c :: cs) then some ((c :: cs).drop sep.length)
    else splitFirstOn sep cs

/-- Text before the next occurrence of `sep`. -/
def takeUntilSub (sep : List Char) : List Char → List Char
  | [] => []
  | c :: cs =>
    if sep ≠ [] && sep.isPrefixOf (c :: cs) then []
    else c :: takeUntilSub sep cs

/-- Python `s.replace(a, b)` for single characters. -/
def replaceChar (a b : Char) (l : List Char) : List Char :=
  l.map (fun c => if c = a then b else c)

/-- The diff-context fallback of `_generate_commit_message`
(lines 986-1053): assemble a subject from keyword tests over the diff
context; the `commit_type` is initialized to `feat` and the
`refactor` branch requires it to differ, so it can never fire. -/
def diffContextFallback (dc : List Char) : Option (List Char) :=
  if decide (20 < dc.length) then
    let dl := lower dc
    let commitType := "feat".data
    let commitType1 :=
      if containsStr "_get_git_diff" dc || containsStr "get_git_diff" dc then
        "feat".data
      else commitType
    let sp1 : List (List Char) :=
      if containsStr "_get_git_diff" dc || containsStr "get_git_diff" dc then
        ["add git diff parsing to extract code changes".data]
      else []
    let sp2 :=
      if containsStr "commit message" dl || containsStr "generate_commit" dc ||
         containsStr "generate commit" dl then
        sp1 ++ ["improve commit message generation".data] ++
        (if containsStr "diff" dl || containsStr "context" dl then
          ["enhance commit messages with diff analysis".data]
        else [])
      else sp1
    let sp3 :=
      if (containsStr "function" dl || containsStr "def " dl) && sp2.isEmpty then
        sp2 ++ [if containsStr "diff" dl || containsStr "git" dl ||
                   containsStr "context" dl then
                  "enhance git diff analysis".data
                else if containsStr "commit" dl then
                  "improve commit message generation".data
                else "add new functionality".data]
      else sp2
    let tp :=
      if containsStr "class" dl || containsStr "extract" dl then
        if commitType1 ≠ "feat".data then
          ("refactor".data, sp3 ++ ["refactor code structure".data])
        else (commitType1, sp3)
      else (commitType1, sp3)
    let sp4 :=
      if (containsStr "parse" dl || containsStr "extract" dl ||
          containsStr "analyze" dl) && tp.2.isEmpty then
        tp.2 ++ ["improve code analysis and extraction".data]
      else tp.2
    let sp5 :=
      if containsStr "Functions:" dc then
        match splitFirstOn "Functions:".data dc with
        | some after =>
          let funcNames := strip ((takeUntilSub "Functions:".data after).takeWhile
            (fun c => c ≠ ','))
          if !funcNames.isEmpty && decide (funcNames.length < 50) then
            if containsStr "diff" (lower funcNames) ||
               containsStr "git" (lower funcNames) then
              sp4 ++ ["add ".data ++ replaceChar '_' ' ' funcNames ++
                " functionality".data]
            else if containsStr "commit" (lower funcNames) then
              sp4 ++ ["enhance commit message generation".data]
            else sp4
          else sp4
        | none => sp4
      else sp4
    if !sp5.isEmpty then
      let preferred := sp5.filter
        (fun x => containsStr "diff" (lower x) || containsStr "commit" (lower x))
      let subject := (if !preferred.isEmpty then preferred else sp5).headD []
      let subject1 :=
        if decide (subject.length < 15) then
          if containsStr "git" (lower subject) then
            "enhance git diff analysis for commit messages".data
          else if containsStr "commit" (lower subject) then
            "improve commit message generation from code changes".data
          else "add ".data ++ subject ++ " functionality".data
        else subject
      let subject2 :=
        if decide (72 < subject1.length) then subject1.take 69 ++ "...".data
        else subject1
      some (tp.1 ++ ": ".data ++ subject2)
    else none
  else none

/-- `os.path.basename`. -/
def basename (f : String) : List Char :=
  (splitOnChar '/' f.data).getLastD f.data

/-- The file-name fallback of `_generate_commit_message` (lines
1056-1087): infer a type from the file names and return a canned message
when the primary file matches one of four name patterns, otherwise
`None`. -/
def fileBasedFallback (filesChanged : List String) : Option (List Char) :=
  if !filesChanged.isEmpty then
    let fileNames := filesChanged.map basename
    let fnl := lower (joinChar ' ' fileNames)
    let ct :=
      if ["fix", "bug", "error"].any (fun w => containsStr w fnl) then "fix".data
      else if ["refactor", "clean"].any (fun w => containsStr w fnl) then
        "refactor".data
      else if containsStr "test" fnl then "test".data
      else if ["doc", "readme"].any (fun w => containsStr w fnl) then "docs".data
      else "feat".data
    let primary := fileNames.headD "code".data
    if containsStr "completer" (lower primary) then
      some (ct ++ ": improve command completion with better context analysis".data)
    else if containsStr "train" (lower primary) then
      some (ct ++ ": improve training process with better data handling".data)
    else if containsStr "lora" (lower primary) then
      some (ct ++ ": update LoRA training workflow with improved configuration".data)
    else if containsStr "enhanced" (lower primary) then
      some (ct ++ ": enhance completion logic with improved functionality extraction".data)
    else none
  else none

/-- Embedding of `_generate_commit_message` (enhanced_completer.py
757-1096).  `WIP` for an empty change set; otherwise one backend call
under a scoped 15-second timeout (whose raise falls to the outer
`except`, answering the stripped summary or `WIP`), then the response
parser, the diff-context fallback and the file-name fallback in order.
The prompt text itself only feeds the backend oracle and is not
modelled. -/
def generateCommitMessage (env : REnv) (changes : GitChanges) (s : CState) :
    Option String × CState :=
  if changes.filesChanged.isEmpty then (some "WIP", s)
  else
    match scopedTimeout 15 (callGen env) s with
    | Except.error s' =>
      (if !changes.summary.isEmpty then some (pyStrip changes.summary)
       else some "WIP", s')
    | Except.ok (completion, s') =>
      match parseCommitResponse completion with
      | some m => (some ⟨m⟩, s')
      | none =>
        match diffContextFallback env.diffContext.data with
        | some m => (some ⟨m⟩, s')
        | none =>
          match fileBasedFallback changes.filesChanged with
          | some m => (some ⟨m⟩, s')
          | none => (none, s')

/-- Embedding of `get_smart_commit_message` (enhanced_completer.py
1098-1149): empty change set means no suggestion; a produced message is
label-stripped and rejected when it is a bare placeholder, a bare type
without a subject, or has a too-short or placeholder subject. -/
def getSmartCommitMessage (env : REnv) (s : CState) : Option String × CState :=
  let changes := analyzeGitChanges env.git
  if changes.filesChanged.isEmpty then (none, s)
  else
    match generateCommitMessage env changes s with
    | (some msg0, s') =>
      if !msg0.isEmpty then
        let m := strip (stripIOLabelRaw msg0.data)
        if ["wip", "commit message", "message"].any
            (fun r => r.data == strip (lower m)) then (none, s')
        else if !(containsStr ":" m) &&
            ["update", "changes", "fix", "feat", "chore"].any
              (fun r => r.data == strip (lower m)) then (none, s')
        else if containsStr ":" m then
          let subject := strip (splitFirstColon m).2
          if decide (subject.length < 3) then (none, s')
          else if ["message", "commit message"].any
              (fun r => r.data == strip (lower subject)) then (none, s')
          else (some ⟨m⟩, s')
        else (some ⟨m⟩, s')
      else (none, s')
    | (none, s') => (none, s')

end ZshComplete

namespace ZshComplete

/-! ## The enhanced resolver: second `EnhancedCompleter.get_completion`
(enhanced_completer.py 1151-1374) -/

/-- The anchored commit-type tag removal `re.sub(r'^(feat|fix|chore|docs|
refactor|test|style|perf|build|ci):\s*', '', msg, count=1,
flags=re.IGNORECASE)` (line 1271). -/
def commitTypeTags : List String :=
  ["feat:", "fix:", "chore:", "docs:", "refactor:", "test:", "style:",
   "perf:", "build:", "ci:"]

def stripCommitTypeTag (l : List Char) : List Char :=
  match commitTypeTags.find? (fun t => startsWithCI t l) with
  | some t => (l.drop t.length).dropWhile isWs
  | none => l

/-- The commit-branch AI-fallback response parsing (enhanced_completer.py
lines 1254-1285): reject placeholder lines, require a colon and more
than ten characters, drop a leading type tag, and re-check the remainder
for placeholders and a five-character minimum. -/
def commitAIFallbackParse (ai : String) : Option String :=
  (splitLinesL (strip ai.data)).findSome? (fun line0 =>
    let line := strip line0
    let ll := lower line
    if containsStr "commit message" ll ||
       strip ll == "message".data ||
       strip ll == "\"commit message\"".data ||
       strip ll == "'commit message'".data ||
       startsWithS "commit message" ll then none
    else if containsStr ":" line && decide (10 < line.length) &&
        !(startsWithAny ["To", "Here", "Sure", "Format", "Complete",
            "The command"] line) then
      let commitMsg := strip ((splitLinesL line).headD [])
      let commitMsg1 := stripCommitTypeTag commitMsg
      let cml := lower commitMsg1
      if decide (5 < commitMsg1.length) &&
         !(containsStr "commit message" cml) &&
         !(strip cml == "message".data) &&
         !(startsWithS "commit message" cml) then
        some ("git commit -m \"" ++ (⟨commitMsg1⟩ : String) ++ "\"")
      else none
    else none)

/-- The reject tuple of enhanced_completer.py line 1326. -/
def enhancedRejectLeads : List String :=
  ["Complete command:", "The command", "You should", "Run:", "To complete",
   "This will", "You can", "Enter", "Note:", "Suggestion:", "Output:",
   "Context:", "Project:"]

/-- The reject phrases of line 1327. -/
def enhancedRejectPhrases : List String :=
  ["the logical", "next step", "you should", "complete command:"]

/-- The startswith deny tuple inside the acceptance test (line 1331). -/
def enhancedDenyStarts : List String :=
  ["To complete", "This will", "You can", "Run:", "Note:", "Suggestion:",
   "Output:", "Context:", "Project:"]

/-- The list markers of line 1332. -/
def enhancedDenyMarkers : List String := ["1.", "2.", "3.", "- ", "* "]

/-- `command.split()[0] if command.split() else command` (line 1336). -/
def firstWordOrSelf (command : String) : List Char :=
  match pySplitWs command.data with
  | [] => command.data
  | w :: _ => w

/-- The main-path AI-response sanitization of the enhanced resolver
(enhanced_completer.py lines 1312-1352): markdown cleanup, placeholder
and explanatory rejection, then the acceptance test (length gain, no
deny-listed opener or marker, no label/decoration, no pipe in the first
twenty characters, command containment or first-word anchoring, and a
letter/path first character).  First accepted line wins. -/
def aiSanitize (command : String) (completion : String) : Option String :=
  (splitLinesL (strip completion.data)).findSome? (fun line0 =>
    let line := strip (removeAll "```" (strip line0))
    let ll := lower line
    if containsStr "commit message" ll ||
       strip ll == "message".data ||
       strip ll == "\"commit message\"".data ||
       strip ll == "'commit message'".data then none
    else if startsWithAny enhancedRejectLeads line ||
        enhancedRejectPhrases.any (fun p => containsStr p (lower line)) then none
    else if !line.isEmpty && decide (command.length < line.length) &&
        !(startsWithAny enhancedDenyStarts line) &&
        !(startsWithAny enhancedDenyMarkers line) &&
        !(endsWithS ":" line) && !(startsWithS "$" line) &&
        !(startsWithS "`" line) && !(endsWithS "`" line) &&
        !(containsStr "|" (line.take 20)) &&
        (containsSub (lower command.data) (lower line) ||
         (firstWordOrSelf command).isPrefixOf line) &&
        (match line with
         | c :: _ => c.isAlpha || c = '.' || c = '/'
         | [] => false) then
      some (⟨line⟩ : String)
    else none)

/-- The commit-intent test of enhanced_completer.py line 1202:
`(command.strip().startswith('git comm') or 'git commit' in command)
and not ('-m' in command or '--message' in command)`. -/
def commitIntent (command : String) : Bool :=
  (startsWithS "git comm" (strip command.data) ||
   containsStr "git commit" command.data) &&
  !(containsStr "-m" command.data || containsStr "--message" command.data)

/-- The fallback tail of the enhanced resolver (lines 1358-1374):
commit-intent commands never consult the training corpus; a truthy
corpus hit is used unless it smells like the `"commit message"`
placeholder; otherwise the original command is echoed. -/
def mainFallback (env : REnv) (command : String) (s : CState) :
    String × CState :=
  if !(startsWithS "git comm" (strip command.data) ||
       containsStr "git commit" command.data) then
    match fallbackCompletion env.corpus command with
    | some fb =>
      if !fb.isEmpty then
        if containsStr "commit message" (lower fb.data) &&
           containsStr "\"commit message\"" fb.data then (command, s)
        else (fb, s)
      else (command, s)
    | none => (command, s)
  else (command, s)

/-- The smart-commit acceptance test of lines 1212-1226, and the
assembled `git commit -m "…"` of line 1227. -/
def smartCommitAccept (smart : Option String) : Option String :=
  match smart with
  | some msg =>
    if !msg.isEmpty && !(strip msg.data).isEmpty then
      let sl := strip (lower msg.data)
      let isPlaceholder :=
        ["commit message", "message", "wip"].any (fun r => r.data == sl) ||
        containsStr "commit message" sl ||
        strip msg.data == "\"commit message\"".data ||
        strip msg.data == "'commit message'".data
      if !isPlaceholder && decide (8 < sl.length) &&
         containsStr ":" msg.data && !(startsWithS "commit message" sl) then
        some ("git commit -m \"" ++ msg ++ "\"")
      else none
    else none
  | none => none

/-- The commit branch of the enhanced resolver (lines 1200-1294): smart
commit first; if its message is rejected, one AI call under a scoped
10-second timeout parsed by `commitAIFallbackParse`; the training-data
fallback is skipped and the original command returned when everything
fails. -/
def commitPathResult (env : REnv) (command : String) (s : CState) :
    String × CState :=
  match getSmartCommitMessage env s with
  | (smart, s1) =>
    match smartCommitAccept smart with
    | some result => (result, s1)
    | none =>
      match scopedTimeout 10 (callGen env) s1 with
      | Except.error s2 => (command, s2)
      | Except.ok (ai, s2) =>
        if !ai.isEmpty then
          match commitAIFallbackParse ai with
          | some result => (result, s2)
          | none => (command, s2)
        else (command, s2)

/-- The main path of the enhanced resolver (lines 1296-1374): one AI
call under a scoped 5-second timeout (an exception inside the inner
`try` leaves `completion = None`), the sanitizer, then the fallback
tail. -/
def mainPathResult (env : REnv) (command : String) (s : CState) :
    String × CState :=
  match scopedTimeout 5 (callGen env) s with
  | Except.error s1 => mainFallback env command s1
  | Except.ok (completion, s1) =>
    if !completion.isEmpty then
      match aiSanitize command completion with
      | some result => (result, s1)
      | none => mainFallback env command s1
    else mainFallback env command s1

/-- Embedding of the live (second) `EnhancedCompleter.get_completion`
(enhanced_completer.py 1151-1374).  History updates, project-context
refresh, the `command == "git"` context block and the model-name
selection only affect prompts and logs, which the backend oracle
abstracts; the returned value and the client state are modelled in
full. -/
def enhancedGetCompletion (env : REnv) (command : String) (s : CState) :
    String × CState :=
  if commitIntent command then commitPathResult env command s
  else mainPathResult env command s

end ZshComplete

namespace ZshComplete

/-! ## Concrete scenario environments -/

/-- A git environment outside any repository. -/
def gitNone : GitEnv :=
  { isRepo := false, statusShort := "", diffNameOnly := "",
    diffCachedNameOnly := "", diffNameStatus := "", diffCachedNameStatus := "",
    diffCachedStat := "", diffStat := "" }

/-- The client's initial state (constructor defaults of `OllamaClient`). -/
def s0 : CState := { baseUrl := "http://localhost:11434", timeout := 30, calls := 0 }

/-- Environment with an unavailable backend (every `generate_completion`
call fails and returns `""`), an empty cache, no git repository, and the
given training corpus. -/
def env6 (corpus : Option (List (String × String))) : REnv :=
  { models := [], complete := fun _ _ => some "", corpus := corpus,
    git := gitNone, diffContext := "" }

/-- Git state for the commit-placeholder scenario: one modified file
`foo.txt`, nothing staged, no stat output. -/
def git7 : GitEnv :=
  { isRepo := true, statusShort := " M foo.txt", diffNameOnly := "foo.txt",
    diffCachedNameOnly := "", diffNameStatus := "M\tfoo.txt",
    diffCachedNameStatus := "", diffCachedStat := "", diffStat := "" }

/-- Environment whose backend answers the commit-synthesis call with the
placeholder `chore: update` and every later call with `""`. -/
def env7 : REnv :=
  { models := [],
    complete := fun n _ => if n = 0 then some "chore: update" else some "",
    corpus := none, git := git7, diffContext := "" }

end ZshComplete

namespace ZshComplete

/-! ## Theorems for claims C8, C7, C6 -/

/-- C8: the scoped timeout override (used by the interactive completion
path, the commit AI fallback and the commit-message synthesis path)
always restores the client's `timeout` field to its prior value when the
inner call returns, including when it raises, and modifies no other
field of the client: the final state is exactly the inner call's final
state with `timeout` reset. -/
theorem scoped_timeout_restores {α : Type} (k : Nat)
    (inner : CState → Except CState (α × CState)) (s : CState) :
    stateOf (scopedTimeout k inner s)
      = { stateOf (inner { s with timeout := k }) with timeout := s.timeout } := by
  unfold scopedTimeout stateOf
  rcases h : inner { s with timeout := k } with s' | ⟨a, s'⟩ <;> simp

/-- C7: with the backend proposing the placeholder `chore: update` for
the synthesized commit message (and nothing else usable), the
commit-message path rejects the candidate — the line parser refuses it
(six-character subject, below the ten-character minimum), smart-commit
synthesis yields nothing — and the resolver returns the original
unmodified commit command. -/
theorem commit_placeholder_rejected :
    parseCommitResponse "chore: update" = none ∧
    (getSmartCommitMessage env7 s0).1 = none ∧
    (enhancedGetCompletion env7 "git commit" s0).1 = "git commit" := by
  refine ⟨by decide, by decide, by decide⟩

/-- C6 (counterexample): with an empty cache and the corpus holding the
exact record `git comm ↦ git commit -m "msg"`, the resolver on input
`git comm` does NOT return the corpus completion, and the backend IS
invoked (the call counter advances): the live second
`get_completion` routes `git comm` into the commit-message branch, which
skips the training-data fallback entirely. -/
theorem git_comm_counterexample :
    (enhancedGetCompletion (env6 (some [("git comm", "git commit -m \"msg\"")]))
        "git comm" s0).1 ≠ "git commit -m \"msg\"" ∧
    (enhancedGetCompletion (env6 (some [("git comm", "git commit -m \"msg\"")]))
        "git comm" s0).2.calls ≠ 0 := by
  refine ⟨by decide, by decide⟩

/-- C6 (amended): for the input `git comm` the resolver takes the
commit-message path: the training corpus is never consulted (the result
is the same for every corpus), the backend is invoked once, and with the
backend unavailable and no git repository the original input is
returned. -/
theorem git_comm_commit_path (corpus : Option (List (String × String))) :
    (enhancedGetCompletion (env6 corpus) "git comm" s0).1 = "git comm" ∧
    (enhancedGetCompletion (env6 corpus) "git comm" s0).2.calls = 1 :=
  ⟨rfl, rfl⟩

end ZshComplete

namespace ZshComplete

/-! ## Claim C1: totality / non-emptiness of the resolver result -/

theorem mk_ne_empty {l : List Char} (h : l ≠ []) : (⟨l⟩ : String) ≠ "" := by
  intro he
  apply h
  have hd : (⟨l⟩ : String).data = ("" : String).data := by rw [he]
  simpa using hd

theorem gitCommitWrap_ne_empty (m : String) :
    ("git commit -m \"" ++ m ++ "\"") ≠ "" := by
  intro h
  have hl := congrArg String.length h
  rw [String.length_append, String.length_append] at hl
  have h1 : ("git commit -m \"").length = 15 := rfl
  have h2 : ("\"").length = 1 := rfl
  have h3 : ("" : String).length = 0 := rfl
  omega

theorem smartCommitAccept_ne_empty {smart : Option String} {r : String}
    (h : smartCommitAccept smart = some r) : r ≠ "" := by
  unfold smartCommitAccept at h
  rcases smart with _ | msg
  · exact absurd h (by simp)
  · dsimp only at h
    split at h
    · split at h
      · injection h with h
        exact h ▸ gitCommitWrap_ne_empty msg
      · exact absurd h (by simp)
    · exact absurd h (by simp)

theorem commitAIFallbackParse_ne_empty {ai : String} {r : String}
    (h : commitAIFallbackParse ai = some r) : r ≠ "" := by
  unfold commitAIFallbackParse at h
  obtain ⟨line0, _, hf⟩ := List.exists_of_findSome?_eq_some h
  simp only [] at hf
  split at hf
  · exact absurd hf (by simp)
  · split at hf
    · split at hf
      · injection hf with hf
        exact hf ▸ gitCommitWrap_ne_empty _
      · exact absurd hf (by simp)
    · exact absurd hf (by simp)

theorem aiSanitize_ne_empty {command completion : String} {r : String}
    (h : aiSanitize command completion = some r) : r ≠ "" := by
  unfold aiSanitize at h
  obtain ⟨line0, _, hf⟩ := List.exists_of_findSome?_eq_some h
  simp only [] at hf
  split at hf
  · exact absurd hf (by simp)
  · split at hf
    · exact absurd hf (by simp)
    · split at hf
      case isTrue hcond =>
        injection hf with hf
        subst hf
        refine mk_ne_empty ?_
        simp only [Bool.and_eq_true] at hcond
        have hne := hcond.1.1.1.1.1.1.1.1.1.1
        intro hnil
        rw [hnil] at hne
        simp at hne
      case isFalse => exact absurd hf (by simp)

theorem mainFallback_ne_empty (env : REnv) {command : String} (s : CState)
    (h : command ≠ "") : (mainFallback env command s).1 ≠ "" := by
  unfold mainFallback
  split
  · rcases hf : fallbackCompletion env.corpus command with _ | fb
    · exact h
    · by_cases he : fb.isEmpty
      · simp [he, h]
      · simp only [he, Bool.not_false, if_true]
        split
        · exact h
        · simpa [String.isEmpty_iff] using he
  · exact h

theorem commitPathResult_ne_empty (env : REnv) {command : String} (s : CState)
    (h : command ≠ "") : (commitPathResult env command s).1 ≠ "" := by
  unfold commitPathResult
  split
  split
  case h_1 ha => exact smartCommitAccept_ne_empty ha
  case h_2 =>
    split
    · exact h
    · split
      · split
        case h_1 hp => exact commitAIFallbackParse_ne_empty hp
        case h_2 => exact h
      · exact h

theorem mainPathResult_ne_empty (env : REnv) {command : String} (s : CState)
    (h : command ≠ "") : (mainPathResult env command s).1 ≠ "" := by
  unfold mainPathResult
  split
  · exact mainFallback_ne_empty env _ h
  · split
    · split
      case h_1 hp => exact aiSanitize_ne_empty hp
      case h_2 => exact mainFallback_ne_empty env _ h
    · exact mainFallback_ne_empty env _ h

/-- C1 (amended): for every NON-empty input command and every
environment — including one where cache, corpus and backend all fail —
the live resolver's `get_completion` returns a non-empty string: every
accepted sanitized line is non-empty, every assembled commit command is
non-empty, every used corpus hit is truthy, and the identity fallback
echoes the (non-empty) input. -/
theorem resolver_nonempty_of_nonempty_input (env : REnv) (command : String)
    (s : CState) (h : command ≠ "") :
    (enhancedGetCompletion env command s).1 ≠ "" := by
  unfold enhancedGetCompletion
  split
  · exact commitPathResult_ne_empty env s h
  · exact mainPathResult_ne_empty env s h

/-- Witness for `resolver_nonempty_of_nonempty_input` on a concrete
environment with all collaborators failing. -/
theorem resolver_nonempty_witness :
    ("ls" ≠ "") ∧ (enhancedGetCompletion (env6 none) "ls" s0).1 ≠ "" :=
  ⟨by decide, resolver_nonempty_of_nonempty_input (env6 none) "ls" s0 (by decide)⟩

/-- C1 (counterexample): on the EMPTY input command, with cache, corpus
and backend all failing, the identity fallback returns the original
input — the empty string — so the result is not non-empty for all
inputs. -/
theorem resolver_empty_input_empty_output :
    (enhancedGetCompletion (env6 none) "" s0).1 = "" := by decide

end ZshComplete

namespace ZshComplete

/-! ## Claim C10: `ModelCompleter.get_suggestions` (completer.py 171-227) -/

/-- The list markers skipped by the suggestion parser (line 191). -/
def suggestionDenyMarkers : List String :=
  ["1.", "2.", "3.", "4.", "5.", "- ", "* ", "• "]

/-- The explanatory openers skipped by the suggestion parser (line 192). -/
def suggestionDenyStarts : List String :=
  ["To complete", "This will", "You can", "Enter", "Run:", "Note:", "```",
   "Environment:", "User:", "Host:", "Directory:", "Recent:", "Replace",
   "This will launch", "You can now", "This will display"]

/-- One line of the first suggestion-collection pass (lines 187-211):
filter, prefix with the command when needed, cut trailing `#`/`//`
comments, deduplicate against the collected list, and stop once
`max_suggestions` suggestions are collected.  The Boolean component is
the `break` flag. -/
def firstPassStep (command : String) (maxS : Nat) (acc : List String × Bool)
    (line0 : List Char) : List String × Bool :=
  if acc.2 then acc
  else
    let line := strip line0
    if !line.isEmpty &&
       !(startsWithAny suggestionDenyMarkers line) &&
       !(startsWithAny suggestionDenyStarts line) &&
       decide (command.length < line.length) &&
       !(endsWithS ":" line) then
      let sug1 := if command.data.isPrefixOf line then line
                  else command.data ++ line
      let sug2 := if containsStr "#" sug1 then
                    strip (sug1.takeWhile (fun c => c ≠ '#'))
                  else sug1
      let sug3 := if containsStr "//" sug2 then strip (takeUntilSub "//".data sug2)
                  else sug2
      let acc1 :=
        if !sug3.isEmpty && !(acc.1.contains (⟨sug3⟩ : String)) then
          (acc.1 ++ [(⟨sug3⟩ : String)], acc.2)
        else acc
      if maxS ≤ acc1.1.length then (acc1.1, true) else acc1
    else acc

/-- The second pass (lines 214-225): a fixed number of extra backend
calls; each stripped answer is appended when it is truthy and not
already collected — the membership test runs BEFORE the command prefix
is attached. -/
def secondPass (env : REnv) (command : String) :
    Nat → List String → CState → Except CState (List String × CState)
  | 0, sugg, s => Except.ok (sugg, s)
  | n + 1, sugg, s =>
    match callGen env s with
    | Except.error s' => Except.error s'
    | Except.ok (alt, s') =>
      let altS := strip alt.data
      let sugg1 :=
        if !altS.isEmpty && !(sugg.contains (⟨altS⟩ : String)) then
          sugg ++ [(⟨if command.data.isPrefixOf altS then altS
                     else command.data ++ altS⟩ : String)]
        else sugg
      secondPass env command n sugg1 s'

/-- Embedding of `ModelCompleter.get_suggestions` (completer.py lines
171-227): one backend call, the first collection pass over its lines,
then up to `max_suggestions - len(suggestions)` extra backend calls, and
a final truncation to `max_suggestions`.  The method wraps no call in
`try`, so a client exception propagates (the `error` case). -/
def getSuggestions (env : REnv) (command : String) (maxS : Nat) (s : CState) :
    Except CState (List String × CState) :=
  match callGen env s with
  | Except.error s1 => Except.error s1
  | Except.ok (completion, s1) =>
    let firstAcc := (splitLinesL (strip completion.data)).foldl
      (firstPassStep command maxS) ([], false)
    match secondPass env command (maxS - firstAcc.1.length) firstAcc.1 s1 with
    | Except.error s2 => Except.error s2
    | Except.ok (sugg, s2) => Except.ok (sugg.take maxS, s2)

/-- The suggestion list a completed call returns (empty when the call
raised). -/
def suggestionsOf : Except CState (List String × CState) → List String
  | Except.ok (r, _) => r
  | Except.error _ => []

/-- C10 (amended): for every command, environment and
`max_suggestions ≥ 0`, a completed `get_suggestions` call returns at
most `max_suggestions` suggestions (the final slice enforces the bound);
pairwise distinctness, however, does not hold in general — see the
counterexample. -/
theorem get_suggestions_at_most_max (env : REnv) (command : String)
    (maxS : Nat) (s : CState) :
    (suggestionsOf (getSuggestions env command maxS s)).length ≤ maxS := by
  unfold getSuggestions
  split
  · simp [suggestionsOf]
  · dsimp only
    split
    · simp [suggestionsOf]
    · simp only [suggestionsOf, List.length_take]
      exact min_le_left _ _

/-- Environment for the duplicate-suggestion counterexample: the first
backend call answers `git status`, every later call answers `status`. -/
def env10 : REnv :=
  { models := [],
    complete := fun n _ => if n = 0 then some "git status" else some "status",
    corpus := none, git := gitNone, diffContext := "" }

/-- C10 (counterexample): with input `git ` and `max_suggestions = 2`,
the first pass collects `git status` and the second pass appends the raw
candidate `status` — absent from the list — which becomes `git status`
after prefixing: the returned list is `[git status, git status]`, so
the suggestions are NOT pairwise distinct. -/
theorem get_suggestions_duplicate :
    suggestionsOf (getSuggestions env10 "git " 2 s0)
      = ["git status", "git status"] ∧
    ¬ (suggestionsOf (getSuggestions env10 "git " 2 s0)).Nodup := by
  refine ⟨by decide, ?_⟩
  intro h
  rw [show suggestionsOf (getSuggestions env10 "git " 2 s0)
      = ["git status", "git status"] from by decide] at h
  simp at h

end ZshComplete
